import Mathlib

/-!
Formal model of `src/update_problems.py`:

```python
file_path = '...problems.json'

with open(file_path, 'r') as f:
    problems = json.load(f)

for p in problems:
    if 'problemType' not in p:
        p['problemType'] = 'code'

with open(file_path, 'w') as f:
    json.dump(problems, f, indent=4)

print(f"Updated \x7blen(problems)\x7d problems.")
```

The script is a read / transform / write / report pipeline over a JSON
document.  We embed JSON values as the inductive `Json` (numeric literals are
modelled as integers; no claim involves numeric values), and the stdlib
operations the script uses (`in` membership, item assignment, `len`,
`json.dump` with `indent=4`) as Lean functions faithful to Python semantics,
including their `TypeError` behaviour on values of the wrong shape.
`json.load` is abstracted to its result: the file's content is given as
`Option Json`, where `none` stands for content that is not parseable JSON
(`json.load` raises `json.JSONDecodeError`, the parse error) and `some v`
stands for content parsing to the value `v`.
-/

/-- A JSON value as produced by Python's `json.load`: `null`, booleans,
numbers (modelled as integers), strings, arrays, and objects.  Python dicts
preserve insertion order, so an object is an ordered association list. -/
inductive Json where
  | null : Json
  | bool (b : Bool) : Json
  | num (n : Int) : Json
  | str (s : String) : Json
  | arr (elems : List Json) : Json
  | obj (fields : List (String × Json)) : Json

/-- Errors the script can raise.  `parseError` is `json.JSONDecodeError`
from `json.load`; `typeError` is Python's `TypeError` (raised by `in` on a
non-container, by item assignment on an immutable or non-mapping value, and
by `len` on an unsized value). -/
inductive PyError where
  | parseError : PyError
  | typeError : PyError
deriving DecidableEq

/-- First-match lookup in a Python dict represented as an association list
(`d[k]` / `k in d` semantics; keys are unique in dicts built by
`json.load`). -/
def dictGet (fs : List (String × Json)) (k : String) : Option Json :=
  match fs with
  | [] => none
  | (k', v) :: rest => if k' = k then some v else dictGet rest k

/-- `k in d` for a Python dict: key membership. -/
def dictHasKey (fs : List (String × Json)) (k : String) : Bool :=
  fs.any (fun kv => kv.1 = k)

/-- `needle == x` where `needle` is a Python `str`: true exactly when `x`
is an equal string (Python `==` between a string and a non-string value is
`False`). -/
def pyEqStr (needle : String) (x : Json) : Bool :=
  match x with
  | .str s => s = needle
  | _ => false

/-- Does `needle` occur as a contiguous run at the head of `hay`? -/
def leadsWith (needle hay : List Char) : Bool :=
  match needle, hay with
  | [], _ => true
  | _ :: _, [] => false
  | a :: as, b :: bs => a = b && leadsWith as bs

/-- Does `needle` occur as a contiguous run anywhere in `hay`?
(Python substring containment `needle in hay` on `str`.) -/
def hasSubRun (needle hay : List Char) : Bool :=
  match hay with
  | [] => needle.isEmpty
  | _ :: rest => leadsWith needle hay || hasSubRun needle rest

/-- Python `needle in p` for a string `needle`, per the type of `p`:
substring test on a `str`, key membership on a `dict`, element membership
(`==` against each element) on a `list`, and `TypeError` otherwise. -/
def pyContains (needle : String) (p : Json) : Except PyError Bool :=
  match p with
  | .obj fs => .ok (dictHasKey fs needle)
  | .str s => .ok (hasSubRun needle.data s.data)
  | .arr xs => .ok (xs.any (pyEqStr needle))
  | _ => .error .typeError

/-- Python `p[k] = v` with a string key: on a `dict`, update in place if the
key exists, else append the new key at the end (insertion order); on every
other value — including `str` and `list` — a `TypeError`. -/
def pySetItem (p : Json) (k : String) (v : Json) : Except PyError Json :=
  match p with
  | .obj fs =>
      .ok (.obj (if dictHasKey fs k then
                   fs.map (fun kv => if kv.1 = k then (k, v) else kv)
                 else fs ++ [(k, v)]))
  | _ => .error .typeError

/-- The body of the script's loop on one iteration value `p`:
`if 'problemType' not in p: p['problemType'] = 'code'`.  Returns the value
of `p` after the iteration (Python mutates `p` in place; we return the new
value). -/
def loopBody (p : Json) : Except PyError Json := do
  let isIn ← pyContains "problemType" p
  if isIn then pure p else pySetItem p "problemType" (.str "code")

/-- Runs `loopBody` left to right over a list of iteration values, stopping
at the first raised error (Python exception propagation), and collecting the
post-iteration values in order. -/
def runLoopList : List Json → Except PyError (List Json)
  | [] => .ok []
  | p :: ps => do
      let p' ← loopBody p
      let ps' ← runLoopList ps
      pure (p' :: ps')

/-- The whole `for p in problems:` loop on the parsed value `problems`,
returning the value of `problems` after the loop.
Python iterates a `list` over its elements (mutations to element dicts are
visible in the list), a `dict` over its keys (each `p` is a `str`, so any
attempted item assignment raises `TypeError` and never alters the dict),
a `str` over its one-character strings (likewise immutable), and raises
`TypeError` on non-iterable values (`int`, `bool`, `None`). -/
def pyForLoop (problems : Json) : Except PyError Json :=
  match problems with
  | .arr ps => (runLoopList ps).map Json.arr
  | .obj fs => (runLoopList (fs.map (fun kv => Json.str kv.1))).map (fun _ => Json.obj fs)
  | .str s => (runLoopList (s.data.map (fun c => Json.str (String.mk [c])))).map (fun _ => Json.str s)
  | _ => .error .typeError

/-- Python `len`: number of elements of a `list`, keys of a `dict`,
characters of a `str`; `TypeError` on unsized values. -/
def pyLen (p : Json) : Except PyError Nat :=
  match p with
  | .arr xs => .ok xs.length
  | .obj fs => .ok fs.length
  | .str s => .ok s.length
  | _ => .error .typeError

/-- One hexadecimal digit, lowercase (as in Python's `\uXXXX` escapes). -/
def hexDigit (n : Nat) : Char :=
  if n < 10 then Char.ofNat (48 + n) else Char.ofNat (87 + n)

/-- Four-digit lowercase hexadecimal rendering of `n % 0x10000`. -/
def hex4 (n : Nat) : String :=
  String.mk [hexDigit (n / 4096 % 16), hexDigit (n / 256 % 16),
             hexDigit (n / 16 % 16), hexDigit (n % 16)]

/-- Escaping of one character inside a JSON string literal as done by
Python's `json.dump` with its default `ensure_ascii=True`: the two-character
escapes for `"`,`\`, backspace, form feed, newline, carriage return, tab;
`\uXXXX` for other control and all non-ASCII characters (a surrogate pair
for characters beyond the Basic Multilingual Plane); the character itself
otherwise. -/
def escChar (c : Char) : String :=
  if c = '"' then "\\\""
  else if c = '\\' then "\\\\"
  else if c = Char.ofNat 8 then "\\b"
  else if c = Char.ofNat 12 then "\\f"
  else if c = '\n' then "\\n"
  else if c = '\r' then "\\r"
  else if c = '\t' then "\\t"
  else if c.toNat < 32 then "\\u" ++ hex4 c.toNat
  else if c.toNat < 127 then String.mk [c]
  else if c.toNat < 65536 then "\\u" ++ hex4 c.toNat
  else
    "\\u" ++ hex4 (55296 + (c.toNat - 65536) / 1024) ++
    "\\u" ++ hex4 (56320 + (c.toNat - 65536) % 1024)

/-- A JSON string literal as serialized by `json.dump`: quotes around the
escaped characters. -/
def pyQuote (s : String) : String :=
  "\"" ++ String.join (s.data.map escChar) ++ "\""

/-- The decimal digits of a natural number, most significant first
(`0` renders as `"0"`). -/
def natChars (n : Nat) : List Char :=
  if n < 10 then [Char.ofNat (48 + n)]
  else natChars (n / 10) ++ [Char.ofNat (48 + n % 10)]
termination_by n
decreasing_by
  exact Nat.div_lt_self (by omega) (by omega)

/-- Python's decimal rendering of an integer (what `json.dump` writes for
an `int`): an optional minus sign followed by the decimal digits. -/
def intText (n : Int) : String :=
  if n < 0 then String.mk ('-' :: natChars n.natAbs) else String.mk (natChars n.toNat)

/-- Appends the item separator `","` to the last line of a block
(`json.dump` with an `indent` puts the comma at the end of an item's last
physical line). -/
def addComma : List (Nat × String) → List (Nat × String)
  | [] => []
  | [l] => [(l.1, l.2 ++ ",")]
  | l :: ls => l :: addComma ls

/-- Joins the line blocks of consecutive items, separating them with
commas. -/
def glueBlocks : List (List (Nat × String)) → List (Nat × String)
  | [] => []
  | [b] => b
  | b :: bs => addComma b ++ glueBlocks bs

/-- Prefixes an object entry's value block with `"key": ` on its first
line (`json.dump`'s key separator is `": "` when an `indent` is given). -/
def keyMerge (k : String) : List (Nat × String) → List (Nat × String)
  | [] => []
  | (d, s) :: rest => (d, pyQuote k ++ ": " ++ s) :: rest

/-- The physical lines `json.dump(v, f, indent=...)` produces, each as a
pair of its nesting depth and its content after the indentation: scalars
and empty containers on one line; a non-empty array or object opens and
closes its bracket at the current depth with the items one level deeper,
one item per block, comma-separated. -/
def jlines (v : Json) (d : Nat) : List (Nat × String) :=
  match v with
  | .null => [(d, "null")]
  | .bool b => [(d, if b then "true" else "false")]
  | .num n => [(d, intText n)]
  | .str s => [(d, pyQuote s)]
  | .arr [] => [(d, "[]")]
  | .arr xs =>
      (d, "[") :: glueBlocks (xs.attach.map (fun x => jlines x.1 (d + 1))) ++ [(d, "]")]
  | .obj [] => [(d, "\x7b\x7d")]
  | .obj fs =>
      (d, "\x7b") ::
        glueBlocks (fs.attach.map (fun kv => keyMerge kv.1.1 (jlines kv.1.2 (d + 1)))) ++
        [(d, "\x7d")]
termination_by sizeOf v
decreasing_by
  · have h := List.sizeOf_lt_of_mem x.2
    simp only [Json.arr.sizeOf_spec]
    omega
  · have h := List.sizeOf_lt_of_mem kv.2
    have h2 : sizeOf kv.1.2 < sizeOf kv.1 := by
      obtain ⟨a, b⟩ := kv.1
      simp only [Prod.mk.sizeOf_spec]
      omega
    simp only [Json.obj.sizeOf_spec]
    omega

/-- `n` space characters. -/
def mkSpaces (n : Nat) : String :=
  String.mk (List.replicate n ' ')

/-- Renders one depth-tagged line with an indentation unit of `u` spaces
per nesting level. -/
def renderLine (u : Nat) (l : Nat × String) : String :=
  mkSpaces (u * l.1) ++ l.2

/-- The full text `json.dump(v, f, indent=4)` writes: the physical lines,
each indented by four spaces per nesting level, joined by newlines. -/
def pyDumps (v : Json) : String :=
  String.intercalate "\n" ((jlines v 0).map (renderLine 4))

/-- The observable outcome of one run of the script.
`written = some s` means the script reached the `open(file_path, 'w')` /
`json.dump` step and replaced the file's entire content with `s` (opening
with mode `'w'` truncates, so the write is a whole-file overwrite);
`written = none` means the write was never attempted and the file keeps its
prior content.  `stdout` is the list of printed lines.  `error = some e`
means the run terminated abnormally with the uncaught exception `e`. -/
structure RunOutcome where
  written : Option String
  stdout : List String
  error : Option PyError
deriving DecidableEq

/-- The whole script, as a function of the parse of the file's content
(`none`: the content is not valid JSON).  In source order: `json.load`
(raises `parseError` on unparseable content), the transform loop, the
whole-file write of `json.dump(problems, f, indent=4)`, then
`print(f"Updated \x7blen(problems)\x7d problems.")` — the write precedes
the `len`, so a `len` failure would still leave the file overwritten. -/
def script (content : Option Json) : RunOutcome :=
  match content with
  | none => ⟨none, [], some .parseError⟩
  | some problems =>
      match pyForLoop problems with
      | .error e => ⟨none, [], some e⟩
      | .ok problems' =>
          match pyLen problems' with
          | .error e => ⟨some (pyDumps problems'), [], some e⟩
          | .ok n => ⟨some (pyDumps problems'),
                      ["Updated " ++ toString n ++ " problems."], none⟩

/-- Is the parsed value a sequence of field-to-value mappings (a JSON array
whose elements are all objects)?  This is the shape the spec calls a
"Record Collection". -/
def isSeqOfMappings (v : Json) : Bool :=
  match v with
  | .arr xs => xs.all (fun x => match x with | .obj _ => true | _ => false)
  | _ => false

/-- Count of leading space characters of a line. -/
def leadSpaces : List Char → Nat
  | [] => 0
  | c :: rest => if c = ' ' then leadSpaces rest + 1 else 0

/-! ### Helper lemmas about dict operations -/

theorem dictGet_none_of_not_hasKey (fs : List (String × Json)) (k : String)
    (h : dictHasKey fs k = false) : dictGet fs k = none := by
  induction fs with
  | nil => rfl
  | cons kv rest ih =>
    simp only [dictHasKey, List.any_cons, Bool.or_eq_false_iff] at h
    simp only [dictGet]
    obtain ⟨h1, h2⟩ := h
    rw [if_neg (by simpa using h1)]
    exact ih h2

theorem dictHasKey_of_dictGet_some (fs : List (String × Json)) (k : String)
    (v : Json) (h : dictGet fs k = some v) : dictHasKey fs k = true := by
  induction fs with
  | nil => simp [dictGet] at h
  | cons kv rest ih =>
    simp only [dictGet] at h
    simp only [dictHasKey, List.any_cons, Bool.or_eq_true]
    by_cases hk : kv.1 = k
    · left; simpa using hk
    · right
      rw [if_neg hk] at h
      exact ih h

theorem dictGet_append_single_self (fs : List (String × Json)) (k : String)
    (v : Json) (h : dictHasKey fs k = false) :
    dictGet (fs ++ [(k, v)]) k = some v := by
  induction fs with
  | nil => simp [dictGet]
  | cons kv rest ih =>
    simp only [dictHasKey, List.any_cons, Bool.or_eq_false_iff] at h
    obtain ⟨h1, h2⟩ := h
    simp only [List.cons_append, dictGet]
    rw [if_neg (by simpa using h1)]
    exact ih h2

theorem dictGet_append_single_other (fs : List (String × Json)) (k k' : String)
    (v : Json) (h : k' ≠ k) : dictGet (fs ++ [(k, v)]) k' = dictGet fs k' := by
  induction fs with
  | nil =>
    simp only [List.nil_append, dictGet]
    rw [if_neg (fun h' => h h'.symm)]
  | cons kv rest ih =>
    simp only [List.cons_append, dictGet]
    by_cases hk : kv.1 = k'
    · rw [if_pos hk, if_pos hk]
    · rw [if_neg hk, if_neg hk]
      exact ih

/-! ### Helper lemmas about the loop body -/

theorem ok_bind {α β : Type} (a : α) (f : α → Except PyError β) :
    (Except.ok a >>= f) = f a := rfl

theorem error_bind {α β : Type} (e : PyError) (f : α → Except PyError β) :
    ((Except.error e : Except PyError α) >>= f) = Except.error e := rfl

theorem loopBody_obj_hasKey (fs : List (String × Json))
    (h : dictHasKey fs "problemType" = true) :
    loopBody (Json.obj fs) = Except.ok (Json.obj fs) := by
  simp [loopBody, pyContains, h, ok_bind, pure, Except.pure]

theorem loopBody_obj_missing (fs : List (String × Json))
    (h : dictHasKey fs "problemType" = false) :
    loopBody (Json.obj fs) =
      Except.ok (Json.obj (fs ++ [("problemType", Json.str "code")])) := by
  simp [loopBody, pyContains, h, ok_bind, pySetItem]

/-- Inversion: a successful loop body on an object yields an object that is
either unchanged (the key was present) or the input with the default entry
appended at the end (the key was absent). -/
theorem loopBody_obj_cases (fs : List (String × Json)) (p' : Json)
    (h : loopBody (Json.obj fs) = Except.ok p') :
    (dictHasKey fs "problemType" = true ∧ p' = Json.obj fs) ∨
      (dictHasKey fs "problemType" = false ∧
        p' = Json.obj (fs ++ [("problemType", Json.str "code")])) := by
  by_cases hk : dictHasKey fs "problemType"
  · rw [loopBody_obj_hasKey fs hk] at h
    obtain rfl : Json.obj fs = p' := by injection h
    exact Or.inl ⟨hk, rfl⟩
  · rw [loopBody_obj_missing fs (by simpa using hk)] at h
    obtain rfl : Json.obj (fs ++ [("problemType", Json.str "code")]) = p' := by injection h
    exact Or.inr ⟨by simpa using hk, rfl⟩

/-- Running the loop body a second time on its own successful result is the
identity: `problemType` is present (or the value immutable and unchanged)
after the first pass. -/
theorem loopBody_idem (p p' : Json) (h : loopBody p = Except.ok p') :
    loopBody p' = Except.ok p' := by
  cases p with
  | obj fs =>
    rcases loopBody_obj_cases fs p' h with ⟨hk, rfl⟩ | ⟨hk, rfl⟩
    · exact loopBody_obj_hasKey fs hk
    · refine loopBody_obj_hasKey _ ?_
      have := dictGet_append_single_self fs "problemType" (Json.str "code") hk
      exact dictHasKey_of_dictGet_some _ _ _ this
  | str s =>
    simp only [loopBody, pyContains, ok_bind] at h
    by_cases hs : hasSubRun "problemType".data s.data
    · simp only [hs, if_true, pure, Except.pure] at h
      obtain rfl : Json.str s = p' := by injection h
      simp [loopBody, pyContains, ok_bind, hs, pure, Except.pure]
    · simp [hs, pySetItem] at h
  | arr xs =>
    simp only [loopBody, pyContains, ok_bind] at h
    by_cases hs : xs.any (pyEqStr "problemType")
    · simp only [hs, if_true, pure, Except.pure] at h
      obtain rfl : Json.arr xs = p' := by injection h
      simp [loopBody, pyContains, ok_bind, hs, pure, Except.pure]
    · simp [hs, pySetItem] at h
  | null => simp [loopBody, pyContains, error_bind] at h
  | bool b => simp [loopBody, pyContains, error_bind] at h
  | num n => simp [loopBody, pyContains, error_bind] at h

/-! ### Helper lemmas about the loop over a list -/

theorem runLoopList_cons (p : Json) (ps : List Json) :
    runLoopList (p :: ps) =
      loopBody p >>= fun p' => runLoopList ps >>= fun ps' => pure (p' :: ps') := rfl

theorem runLoopList_ok_cons (p : Json) (ps rs' : List Json)
    (h : runLoopList (p :: ps) = Except.ok rs') :
    ∃ p' ps', loopBody p = Except.ok p' ∧ runLoopList ps = Except.ok ps' ∧
      rs' = p' :: ps' := by
  rw [runLoopList_cons] at h
  cases hp : loopBody p with
  | error e => rw [hp, error_bind] at h; simp at h
  | ok p' =>
    rw [hp, ok_bind] at h
    cases hps : runLoopList ps with
    | error e => rw [hps, error_bind] at h; simp at h
    | ok ps' =>
      rw [hps, ok_bind] at h
      simp only [pure, Except.pure, Except.ok.injEq] at h
      exact ⟨p', ps', rfl, rfl, h.symm⟩

theorem runLoopList_length (ps rs' : List Json)
    (h : runLoopList ps = Except.ok rs') : rs'.length = ps.length := by
  induction ps generalizing rs' with
  | nil => cases h; rfl
  | cons p ps ih =>
    obtain ⟨p', ps', _, hps, rfl⟩ := runLoopList_ok_cons p ps rs' h
    simp [ih ps' hps]

theorem runLoopList_get (ps rs' : List Json)
    (h : runLoopList ps = Except.ok rs') :
    ∀ (i : Nat) (p : Json), ps[i]? = some p →
      ∃ p', rs'[i]? = some p' ∧ loopBody p = Except.ok p' := by
  induction ps generalizing rs' with
  | nil => intro i p hp; simp at hp
  | cons q qs ih =>
    intro i p hp
    obtain ⟨q', qs', hq, hqs, rfl⟩ := runLoopList_ok_cons q qs rs' h
    cases i with
    | zero =>
      simp only [List.getElem?_cons_zero, Option.some.injEq] at hp
      exact ⟨q', by simp, hp ▸ hq⟩
    | succ n =>
      simp only [List.getElem?_cons_succ] at hp ⊢
      exact ih qs' hqs n p hp

theorem runLoopList_idem (ps rs' : List Json)
    (h : runLoopList ps = Except.ok rs') : runLoopList rs' = Except.ok rs' := by
  induction ps generalizing rs' with
  | nil => cases h; rfl
  | cons p ps ih =>
    obtain ⟨p', ps', hp, hps, rfl⟩ := runLoopList_ok_cons p ps rs' h
    rw [runLoopList_cons, loopBody_idem p p' hp, ih ps' hps, ok_bind, ok_bind]
    rfl

/-- Inversion for the loop on an array value. -/
theorem pyForLoop_arr_ok (rs : List Json) (out : Json)
    (h : pyForLoop (Json.arr rs) = Except.ok out) :
    ∃ rs', runLoopList rs = Except.ok rs' ∧ out = Json.arr rs' := by
  simp only [pyForLoop] at h
  cases hr : runLoopList rs with
  | error e => rw [hr] at h; simp [Except.map] at h
  | ok rs' =>
    rw [hr] at h
    simp only [Except.map, Except.ok.injEq] at h
    exact ⟨rs', rfl, h.symm⟩

/-! ### Claim theorems: the transform -/

/-- C1: for every record in the input collection that lacks the key
`problemType`, the corresponding record in the output collection has
`problemType` equal to the literal string `"code"`. -/
theorem default_applied_when_missing (rs rs' : List Json) (i : Nat)
    (fs : List (String × Json))
    (h : pyForLoop (Json.arr rs) = Except.ok (Json.arr rs'))
    (hget : rs[i]? = some (Json.obj fs))
    (hmiss : dictHasKey fs "problemType" = false) :
    ∃ fs', rs'[i]? = some (Json.obj fs') ∧
      dictGet fs' "problemType" = some (Json.str "code") := by
  obtain ⟨ts, hts, harr⟩ := pyForLoop_arr_ok rs (Json.arr rs') h
  obtain rfl : rs' = ts := by injection harr
  obtain ⟨p', hp', hbody⟩ := runLoopList_get rs rs' hts i (Json.obj fs) hget
  rw [loopBody_obj_missing fs hmiss] at hbody
  obtain rfl : Json.obj (fs ++ [("problemType", Json.str "code")]) = p' := by injection hbody
  exact ⟨fs ++ [("problemType", Json.str "code")], hp',
    dictGet_append_single_self fs "problemType" (Json.str "code") hmiss⟩

theorem default_applied_when_missing_witness :
    pyForLoop (Json.arr [Json.obj [("id", Json.num 1)]]) =
        Except.ok (Json.arr [Json.obj [("id", Json.num 1),
                                       ("problemType", Json.str "code")]]) ∧
      (Json.arr [Json.obj [("id", Json.num 1)]] = Json.arr [Json.obj [("id", Json.num 1)]]) ∧
      ∃ fs', [Json.obj [("id", Json.num 1), ("problemType", Json.str "code")]][0]? =
          some (Json.obj fs') ∧
        dictGet fs' "problemType" = some (Json.str "code") :=
  ⟨rfl, rfl, default_applied_when_missing [Json.obj [("id", Json.num 1)]]
    [Json.obj [("id", Json.num 1), ("problemType", Json.str "code")]] 0
    [("id", Json.num 1)] rfl rfl rfl⟩

/-- C2: the transform is idempotent — applying the loop to its own
successful result succeeds and changes nothing. -/
theorem transform_idempotent (v v' : Json)
    (h : pyForLoop v = Except.ok v') : pyForLoop v' = Except.ok v' := by
  cases v with
  | arr rs =>
    obtain ⟨rs', hrs, rfl⟩ := pyForLoop_arr_ok rs v' h
    simp [pyForLoop, runLoopList_idem rs rs' hrs, Except.map]
  | obj fs =>
    simp only [pyForLoop] at h
    cases hr : runLoopList (fs.map (fun kv => Json.str kv.1)) with
    | error e => rw [hr] at h; simp [Except.map] at h
    | ok ks =>
      rw [hr] at h
      simp only [Except.map, Except.ok.injEq] at h
      rw [← h]
      simp [pyForLoop, hr, Except.map]
  | str s =>
    simp only [pyForLoop] at h
    cases hr : runLoopList (s.data.map (fun c => Json.str (String.mk [c]))) with
    | error e => rw [hr] at h; simp [Except.map] at h
    | ok ks =>
      rw [hr] at h
      simp only [Except.map, Except.ok.injEq] at h
      rw [← h]
      simp [pyForLoop, hr, Except.map]
  | null => simp [pyForLoop] at h
  | bool b => simp [pyForLoop] at h
  | num n => simp [pyForLoop] at h

theorem transform_idempotent_witness :
    pyForLoop (Json.arr [Json.obj []]) =
        Except.ok (Json.arr [Json.obj [("problemType", Json.str "code")]]) ∧
      pyForLoop (Json.arr [Json.obj [("problemType", Json.str "code")]]) =
        Except.ok (Json.arr [Json.obj [("problemType", Json.str "code")]]) :=
  ⟨rfl, transform_idempotent (Json.arr [Json.obj []])
    (Json.arr [Json.obj [("problemType", Json.str "code")]]) rfl⟩

/-- C3: for every record of the input collection, every field other than
`problemType` has the same lookup result in the corresponding output
record — present fields keep their values, absent fields stay absent, so no
field other than `problemType` is added, removed, or altered. -/
theorem other_fields_preserved (rs rs' : List Json) (i : Nat)
    (fs fs' : List (String × Json)) (k : String)
    (h : pyForLoop (Json.arr rs) = Except.ok (Json.arr rs'))
    (hget : rs[i]? = some (Json.obj fs))
    (hget' : rs'[i]? = some (Json.obj fs'))
    (hk : k ≠ "problemType") :
    dictGet fs' k = dictGet fs k := by
  obtain ⟨ts, hts, harr⟩ := pyForLoop_arr_ok rs (Json.arr rs') h
  obtain rfl : rs' = ts := by injection harr
  obtain ⟨p', hp', hbody⟩ := runLoopList_get rs rs' hts i (Json.obj fs) hget
  rw [hget'] at hp'
  obtain rfl : p' = Json.obj fs' := by injection hp' with hp'; exact hp'.symm
  rcases loopBody_obj_cases fs (Json.obj fs') hbody with ⟨_, hfs⟩ | ⟨_, hfs⟩
  · obtain rfl : fs' = fs := by injection hfs
    rfl
  · obtain rfl : fs' = fs ++ [("problemType", Json.str "code")] := by injection hfs
    exact dictGet_append_single_other fs "problemType" k (Json.str "code") hk

theorem other_fields_preserved_witness :
    pyForLoop (Json.arr [Json.obj [("id", Json.num 1)]]) =
        Except.ok (Json.arr [Json.obj [("id", Json.num 1),
                                       ("problemType", Json.str "code")]]) ∧
      dictGet [("id", Json.num 1), ("problemType", Json.str "code")] "id" =
        dictGet [("id", Json.num 1)] "id" :=
  ⟨rfl, other_fields_preserved [Json.obj [("id", Json.num 1)]]
    [Json.obj [("id", Json.num 1), ("problemType", Json.str "code")]] 0
    [("id", Json.num 1)] [("id", Json.num 1), ("problemType", Json.str "code")]
    "id" rfl rfl rfl (by decide)⟩

/-- C4: a record that already has the key `problemType` — whatever its
value — keeps exactly that value in the corresponding output record. -/
theorem existing_value_preserved (rs rs' : List Json) (i : Nat)
    (fs : List (String × Json)) (v : Json)
    (h : pyForLoop (Json.arr rs) = Except.ok (Json.arr rs'))
    (hget : rs[i]? = some (Json.obj fs))
    (hv : dictGet fs "problemType" = some v) :
    ∃ fs', rs'[i]? = some (Json.obj fs') ∧
      dictGet fs' "problemType" = some v := by
  obtain ⟨ts, hts, harr⟩ := pyForLoop_arr_ok rs (Json.arr rs') h
  obtain rfl : rs' = ts := by injection harr
  obtain ⟨p', hp', hbody⟩ := runLoopList_get rs rs' hts i (Json.obj fs) hget
  rw [loopBody_obj_hasKey fs (dictHasKey_of_dictGet_some fs "problemType" v hv)] at hbody
  obtain rfl : Json.obj fs = p' := by injection hbody
  exact ⟨fs, hp', hv⟩

theorem existing_value_preserved_witness :
    pyForLoop (Json.arr [Json.obj [("problemType", Json.str "quiz")]]) =
        Except.ok (Json.arr [Json.obj [("problemType", Json.str "quiz")]]) ∧
      ∃ fs', [Json.obj [("problemType", Json.str "quiz")]][0]? = some (Json.obj fs') ∧
        dictGet fs' "problemType" = some (Json.str "quiz") :=
  ⟨rfl, existing_value_preserved [Json.obj [("problemType", Json.str "quiz")]]
    [Json.obj [("problemType", Json.str "quiz")]] 0
    [("problemType", Json.str "quiz")] (Json.str "quiz") rfl rfl rfl⟩

/-- C5: a successful transform neither adds nor drops records, and the
output records appear in the same sequence order: the collection keeps its
length, and the record at every position of the output is the result of the
loop body on the record at the same position of the input. -/
theorem length_and_order_preserved (rs rs' : List Json)
    (h : pyForLoop (Json.arr rs) = Except.ok (Json.arr rs')) :
    rs'.length = rs.length ∧
      ∀ (i : Nat) (p : Json), rs[i]? = some p →
        ∃ p', rs'[i]? = some p' ∧ loopBody p = Except.ok p' := by
  obtain ⟨ts, hts, harr⟩ := pyForLoop_arr_ok rs (Json.arr rs') h
  obtain rfl : rs' = ts := by injection harr
  exact ⟨runLoopList_length rs rs' hts, runLoopList_get rs rs' hts⟩

theorem length_and_order_preserved_witness :
    pyForLoop (Json.arr [Json.obj [], Json.obj [("problemType", Json.str "quiz")]]) =
        Except.ok (Json.arr [Json.obj [("problemType", Json.str "code")],
                             Json.obj [("problemType", Json.str "quiz")]]) ∧
      ([Json.obj [("problemType", Json.str "code")],
        Json.obj [("problemType", Json.str "quiz")]] : List Json).length =
        ([Json.obj [], Json.obj [("problemType", Json.str "quiz")]] : List Json).length :=
  ⟨rfl, (length_and_order_preserved
    [Json.obj [], Json.obj [("problemType", Json.str "quiz")]]
    [Json.obj [("problemType", Json.str "code")],
     Json.obj [("problemType", Json.str "quiz")]] rfl).1⟩

/-! ### Claim theorems: the report line -/

/-- C6: a successful run prints exactly one line, `Updated \x7bcount\x7d
problems.`, where the count is the number of top-level records of the
collection — independent of how many records were actually mutated. -/
theorem report_line_correct (rs : List Json)
    (h : (script (some (Json.arr rs))).error = none) :
    (script (some (Json.arr rs))).stdout =
      ["Updated " ++ toString rs.length ++ " problems."] := by
  cases hl : pyForLoop (Json.arr rs) with
  | error e => simp only [script, hl] at h; exact absurd h (by simp)
  | ok out =>
    obtain ⟨rs', hrs, rfl⟩ := pyForLoop_arr_ok rs out hl
    simp only [script, hl, pyLen]
    rw [runLoopList_length rs rs' hrs]

theorem report_line_correct_witness :
    (script (some (Json.arr [Json.obj [], Json.obj []]))).error = none ∧
      (script (some (Json.arr [Json.obj [], Json.obj []]))).stdout =
        ["Updated 2 problems."] :=
  ⟨rfl, report_line_correct [Json.obj [], Json.obj []] rfl⟩

/-! ### Claim theorems: failure behaviour -/

/-- C7: when the resource content is not parseable structured data,
`json.load` raises and the run terminates abnormally before the write is
ever attempted: nothing is written (the file keeps its prior content) and
nothing is printed. -/
theorem parse_failure_leaves_file :
    (script none).written = none ∧ (script none).stdout = [] ∧
      (script none).error = some PyError.parseError :=
  ⟨rfl, rfl, rfl⟩

/-- A failing loop body always raises `TypeError`, never a parse error. -/
theorem loopBody_error_typeError (p : Json) (e : PyError)
    (h : loopBody p = Except.error e) : e = PyError.typeError := by
  cases p with
  | obj fs =>
    by_cases hk : dictHasKey fs "problemType"
    · rw [loopBody_obj_hasKey fs hk] at h; exact absurd h (by simp)
    · rw [loopBody_obj_missing fs (by simpa using hk)] at h
      exact absurd h (by simp)
  | str s =>
    simp only [loopBody, pyContains, ok_bind] at h
    by_cases hs : hasSubRun "problemType".data s.data
    · simp [hs, pure, Except.pure] at h
    · simp only [hs, if_false, Bool.false_eq_true, pySetItem] at h
      injection h with h
      exact h.symm
  | arr xs =>
    simp only [loopBody, pyContains, ok_bind] at h
    by_cases hs : xs.any (pyEqStr "problemType")
    · simp [hs, pure, Except.pure] at h
    · simp only [hs, if_false, Bool.false_eq_true, pySetItem] at h
      injection h with h
      exact h.symm
  | null =>
    simp only [loopBody, pyContains, error_bind] at h
    injection h with h
    exact h.symm
  | bool b =>
    simp only [loopBody, pyContains, error_bind] at h
    injection h with h
    exact h.symm
  | num n =>
    simp only [loopBody, pyContains, error_bind] at h
    injection h with h
    exact h.symm

/-- A failing loop always raises `TypeError`, never a parse error. -/
theorem runLoopList_error_typeError (ps : List Json) (e : PyError)
    (h : runLoopList ps = Except.error e) : e = PyError.typeError := by
  induction ps with
  | nil => exact absurd h (by simp [runLoopList])
  | cons p ps ih =>
    rw [runLoopList_cons] at h
    cases hp : loopBody p with
    | error e' =>
      rw [hp, error_bind] at h
      injection h with h
      exact h ▸ loopBody_error_typeError p e' hp
    | ok p' =>
      rw [hp, ok_bind] at h
      cases hps : runLoopList ps with
      | error e' =>
        rw [hps, error_bind] at h
        injection h with h
        cases h
        exact ih hps
      | ok ps' =>
        rw [hps, ok_bind] at h
        exact absurd h (by simp [pure, Except.pure])

/-- A failing transform always raises `TypeError`, never a parse error. -/
theorem pyForLoop_error_typeError (v : Json) (e : PyError)
    (h : pyForLoop v = Except.error e) : e = PyError.typeError := by
  cases v with
  | arr ps =>
    simp only [pyForLoop] at h
    cases hr : runLoopList ps with
    | error e' =>
      rw [hr] at h
      simp only [Except.map] at h
      injection h with h
      exact h ▸ runLoopList_error_typeError ps e' hr
    | ok rs' => rw [hr] at h; simp [Except.map] at h
  | obj fs =>
    simp only [pyForLoop] at h
    cases hr : runLoopList (fs.map (fun kv => Json.str kv.1)) with
    | error e' =>
      rw [hr] at h
      simp only [Except.map] at h
      injection h with h
      exact h ▸ runLoopList_error_typeError _ e' hr
    | ok ks => rw [hr] at h; simp [Except.map] at h
  | str s =>
    simp only [pyForLoop] at h
    cases hr : runLoopList (s.data.map (fun c => Json.str (String.mk [c]))) with
    | error e' =>
      rw [hr] at h
      simp only [Except.map] at h
      injection h with h
      exact h ▸ runLoopList_error_typeError _ e' hr
    | ok ks => rw [hr] at h; simp [Except.map] at h
  | null => simp only [pyForLoop] at h; injection h with h; exact h.symm
  | bool b => simp only [pyForLoop] at h; injection h with h; exact h.symm
  | num n => simp only [pyForLoop] at h; injection h with h; exact h.symm

/-- A failing `len` always raises `TypeError`, never a parse error. -/
theorem pyLen_error_typeError (p : Json) (e : PyError)
    (h : pyLen p = Except.error e) : e = PyError.typeError := by
  cases p with
  | arr xs => exact absurd h (by simp [pyLen])
  | obj fs => exact absurd h (by simp [pyLen])
  | str s => exact absurd h (by simp [pyLen])
  | null => simp only [pyLen] at h; injection h with h; exact h.symm
  | bool b => simp only [pyLen] at h; injection h with h; exact h.symm
  | num n => simp only [pyLen] at h; injection h with h; exact h.symm

/-- C8 (corrected): the run ends with the parse error exactly when the
content is not parseable structured data.  Content that parses to a value
that is not a sequence of mappings never surfaces as a parse error: the
loop and `len` can only raise `TypeError`, and some non-sequence-of-mappings
values make the run succeed outright. -/
theorem parse_error_iff_unparseable (c : Option Json) :
    (script c).error = some PyError.parseError ↔ c = none := by
  cases c with
  | none => simp [script]
  | some v =>
    cases hl : pyForLoop v with
    | error e =>
      have he := pyForLoop_error_typeError v e hl
      simp [script, hl, he]
    | ok out =>
      cases hn : pyLen out with
      | error e =>
        have he := pyLen_error_typeError out e hn
        simp [script, hl, hn, he]
      | ok n => simp [script, hl, hn]

theorem parse_error_iff_unparseable_witness :
    ¬(script (some (Json.arr []))).error = some PyError.parseError :=
  fun h => Option.noConfusion ((parse_error_iff_unparseable (some (Json.arr []))).mp h)

/-- C8 counterexample: the content `["problemType"]` parses to a value that
is not a sequence of mappings, yet the run raises no error at all — the
string element contains `problemType` as a substring, so the loop body
skips it, the file is rewritten, and the count line is printed. -/
theorem not_mapping_without_parse_error_cex :
    isSeqOfMappings (Json.arr [Json.str "problemType"]) = false ∧
      (script (some (Json.arr [Json.str "problemType"]))).error = none ∧
      (script (some (Json.arr [Json.str "problemType"]))).stdout =
        ["Updated 1 problems."] :=
  ⟨rfl, rfl, rfl⟩

/-- C10: the migration is deterministic — the whole run is a pure function
of the parsed input content, so two runs on identical content produce
identical written output, identical standard output, and identical
termination status. -/
theorem script_deterministic (c₁ c₂ : Option Json) (h : c₁ = c₂) :
    script c₁ = script c₂ := by rw [h]

theorem script_deterministic_witness :
    script (some (Json.arr [])) = script (some (Json.arr [])) :=
  script_deterministic (some (Json.arr [])) (some (Json.arr [])) rfl

/-! ### Serializer lemmas: the written text is indented in units of 4 -/

theorem natChars_ne_nil (n : Nat) : natChars n ≠ [] := by
  rw [natChars]
  split
  · simp
  · simp

theorem natChars_head_not_space (n : Nat) : (natChars n).head? ≠ some ' ' := by
  induction n using Nat.strong_induction_on with
  | _ n ih =>
    rw [natChars]
    split
    · rename_i h
      interval_cases n <;> decide
    · rename_i h
      cases hxs : natChars (n / 10) with
      | nil => exact absurd hxs (natChars_ne_nil (n / 10))
      | cons a as =>
        have ha := ih (n / 10) (Nat.div_lt_self (by omega) (by omega))
        rw [hxs] at ha
        simpa using ha

theorem intText_head_not_space (n : Int) : (intText n).data.head? ≠ some ' ' := by
  rw [intText]
  split
  · show (('-' :: natChars n.natAbs).head? ≠ some ' ')
    simp
  · show ((natChars n.toNat).head? ≠ some ' ')
    exact natChars_head_not_space n.toNat

theorem pyQuote_data (s : String) :
    (pyQuote s).data = '"' :: ((String.join (s.data.map escChar)).data ++ ['"']) := by
  show (("\"" ++ String.join (s.data.map escChar) ++ "\"")).data = _
  rw [String.data_append, String.data_append]
  rfl

theorem quote_append_head (k : String) (rest : List Char) :
    ((pyQuote k).data ++ rest).head? = some '"' := by
  rw [pyQuote_data]
  rfl

theorem pyQuote_head (s : String) : (pyQuote s).data.head? = some '"' := by
  rw [pyQuote_data]
  rfl

theorem keyMerge_head (k t : String) :
    (pyQuote k ++ ": " ++ t).data.head? = some '"' := by
  rw [String.data_append, String.data_append, List.append_assoc]
  exact quote_append_head k _

theorem comma_append_head (s : String) (h : s.data.head? ≠ some ' ') :
    (s ++ ",").data.head? ≠ some ' ' := by
  rw [String.data_append]
  cases hd : s.data with
  | nil => decide
  | cons a as =>
    rw [hd] at h
    simpa using h

/-- Every line's content begins with a non-space character (so the rendered
indentation of a line is exactly its depth times the indent unit). -/
def cleanLines (ls : List (Nat × String)) : Prop :=
  ∀ l ∈ ls, l.2.data.head? ≠ some ' '

theorem cleanLines_addComma : ∀ ls : List (Nat × String),
    cleanLines ls → cleanLines (addComma ls)
  | [], h => h
  | [l], h => by
      intro x hx
      simp only [addComma, List.mem_singleton] at hx
      subst hx
      exact comma_append_head l.2 (h l (by simp))
  | a :: b :: ls, h => by
      intro x hx
      simp only [addComma, List.mem_cons] at hx
      rcases hx with hxa | hx
      · exact hxa ▸ h a (by simp)
      · exact cleanLines_addComma (b :: ls)
          (fun y hy => h y (List.mem_cons_of_mem a hy)) x hx

theorem cleanLines_glueBlocks : ∀ bs : List (List (Nat × String)),
    (∀ b ∈ bs, cleanLines b) → cleanLines (glueBlocks bs)
  | [], _ => by intro x hx; simp [glueBlocks] at hx
  | [b], h => by
      intro x hx
      simp only [glueBlocks] at hx
      exact h b (by simp) x hx
  | b :: b' :: bs, h => by
      intro x hx
      simp only [glueBlocks, List.mem_append] at hx
      rcases hx with hx | hx
      · exact cleanLines_addComma b (h b (by simp)) x hx
      · exact cleanLines_glueBlocks (b' :: bs)
          (fun c hc => h c (List.mem_cons_of_mem b hc)) x hx

theorem cleanLines_keyMerge (k : String) : ∀ ls : List (Nat × String),
    cleanLines ls → cleanLines (keyMerge k ls)
  | [], _ => by intro x hx; simp [keyMerge] at hx
  | (d, s) :: rest, h => by
      intro x hx
      simp only [keyMerge, List.mem_cons] at hx
      rcases hx with rfl | hx
      · intro hc
        rw [keyMerge_head k s] at hc
        simp at hc
      · exact h x (List.mem_cons_of_mem (d, s) hx)

theorem jlines_clean : ∀ (v : Json) (d : Nat), cleanLines (jlines v d)
  | .null, d => by
      intro l hl
      simp only [jlines, List.mem_singleton] at hl
      subst hl
      show (("null" : String)).data.head? ≠ some ' '
      decide
  | .bool b, d => by
      intro l hl
      simp only [jlines, List.mem_singleton] at hl
      subst hl
      cases b
      · show (("false" : String)).data.head? ≠ some ' '
        decide
      · show (("true" : String)).data.head? ≠ some ' '
        decide
  | .num n, d => by
      intro l hl
      simp only [jlines, List.mem_singleton] at hl
      subst hl
      exact intText_head_not_space n
  | .str s, d => by
      intro l hl
      simp only [jlines, List.mem_singleton] at hl
      subst hl
      show (pyQuote s).data.head? ≠ some ' '
      rw [pyQuote_head]
      simp
  | .arr [], d => by
      intro l hl
      simp only [jlines, List.mem_singleton] at hl
      subst hl
      show (("[]" : String)).data.head? ≠ some ' '
      decide
  | .arr (x :: xs), d => by
      intro l hl
      simp only [jlines] at hl
      rcases List.mem_cons.mp hl with rfl | hl
      · show (("[" : String)).data.head? ≠ some ' '
        decide
      rcases List.mem_append.mp hl with hl | hl
      · refine cleanLines_glueBlocks _ ?_ l hl
        intro b hb
        rcases List.mem_map.mp hb with ⟨⟨y, hy⟩, _, rfl⟩
        exact jlines_clean y (d + 1)
      · simp only [List.mem_singleton] at hl
        subst hl
        show (("]" : String)).data.head? ≠ some ' '
        decide
  | .obj [], d => by
      intro l hl
      simp only [jlines, List.mem_singleton] at hl
      subst hl
      show (("\x7b\x7d" : String)).data.head? ≠ some ' '
      decide
  | .obj (f :: fs), d => by
      intro l hl
      simp only [jlines] at hl
      rcases List.mem_cons.mp hl with rfl | hl
      · show (("\x7b" : String)).data.head? ≠ some ' '
        decide
      rcases List.mem_append.mp hl with hl | hl
      · refine cleanLines_glueBlocks _ ?_ l hl
        intro b hb
        rcases List.mem_map.mp hb with ⟨⟨⟨kk, vv⟩, hkv⟩, _, rfl⟩
        exact cleanLines_keyMerge kk _ (jlines_clean vv (d + 1))
      · simp only [List.mem_singleton] at hl
        subst hl
        show (("\x7d" : String)).data.head? ≠ some ' '
        decide
termination_by v _ => sizeOf v
decreasing_by
  · have h := List.sizeOf_lt_of_mem hy
    simp only [Json.arr.sizeOf_spec]
    omega
  · have h := List.sizeOf_lt_of_mem hkv
    simp only [Json.obj.sizeOf_spec, Prod.mk.sizeOf_spec] at h ⊢
    omega

theorem leadSpaces_replicate_append (n : Nat) (cs : List Char) :
    leadSpaces (List.replicate n ' ' ++ cs) = n + leadSpaces cs := by
  induction n with
  | zero => simp
  | succ m ih =>
    rw [List.replicate_succ, List.cons_append]
    have hstep : leadSpaces (' ' :: (List.replicate m ' ' ++ cs)) =
        leadSpaces (List.replicate m ' ' ++ cs) + 1 := by
      simp [leadSpaces]
    rw [hstep, ih]
    omega

theorem leadSpaces_of_head_not_space (cs : List Char) (h : cs.head? ≠ some ' ') :
    leadSpaces cs = 0 := by
  cases cs with
  | nil => rfl
  | cons a as =>
    simp only [leadSpaces]
    rw [if_neg (by simpa using h)]

theorem leadSpaces_renderLine (u : Nat) (l : Nat × String)
    (h : l.2.data.head? ≠ some ' ') :
    leadSpaces (renderLine u l).data = u * l.1 := by
  show leadSpaces ((mkSpaces (u * l.1) ++ l.2).data) = u * l.1
  rw [String.data_append]
  show leadSpaces (List.replicate (u * l.1) ' ' ++ l.2.data) = u * l.1
  rw [leadSpaces_replicate_append, leadSpaces_of_head_not_space l.2.data h]
  omega

/-- C9: on success the run replaces the file's entire content with the full
serialization of the transformed collection (`written = some s` is a
whole-file overwrite), and that serialization is indented at 4 spaces per
nesting level: every physical line of the output begins with exactly
`4 * depth` spaces. -/
theorem success_overwrites_with_indent4 (v out : Json)
    (h : pyForLoop v = Except.ok out) :
    (script (some v)).written = some (pyDumps out) ∧
      ∀ l ∈ jlines out 0, leadSpaces (renderLine 4 l).data = 4 * l.1 := by
  constructor
  · cases hn : pyLen out with
    | error e => simp [script, h, hn]
    | ok n => simp [script, h, hn]
  · intro l hl
    exact leadSpaces_renderLine 4 l (jlines_clean out 0 l hl)

theorem success_overwrites_with_indent4_witness :
    pyForLoop (Json.arr [Json.obj []]) =
        Except.ok (Json.arr [Json.obj [("problemType", Json.str "code")]]) ∧
      ((script (some (Json.arr [Json.obj []]))).written =
          some (pyDumps (Json.arr [Json.obj [("problemType", Json.str "code")]])) ∧
        ∀ l ∈ jlines (Json.arr [Json.obj [("problemType", Json.str "code")]]) 0,
          leadSpaces (renderLine 4 l).data = 4 * l.1) :=
  ⟨rfl, success_overwrites_with_indent4 (Json.arr [Json.obj []])
    (Json.arr [Json.obj [("problemType", Json.str "code")]]) rfl⟩
